import Mathlib

/-!
Verification development for the disk-image customization pipeline of the
`dist-git-image` repository (source file `scripts/virt-customize.py`).

The Python source is shallowly embedded: guest command execution
(`guestfs.sh`) is modelled as a deterministic oracle `Guest.sh` mapping the
exact command string the Python code builds to the string output the guest
would return; subprocess and filesystem effects are modelled as explicit
event traces; fallible steps return `Except String` carrying the exact
exception messages raised by the source.
-/

/-! ## Python string primitives

Models of the Python string operations the source relies on
(`str.split`, `re.sub(".+:", ...)`, `re.match` prefix tests,
`" ".join`, `os.path.basename`-style last segment). -/

/-- Model of Python `str.split(sep)` on a list of characters: always returns
at least one (possibly empty) segment, e.g. `"" ↦ [""]`, `"a\n" ↦ ["a",""]`. -/
def pySplitAux (sep : Char) : List Char → List (List Char)
  | [] => [[]]
  | c :: rest =>
    match pySplitAux sep rest with
    | [] => [[c]]
    | h :: t => if c = sep then [] :: h :: t else (c :: h) :: t

/-- Model of Python `str.split(sep)` for a single-character separator. -/
def pySplit (sep : Char) (s : String) : List String :=
  (pySplitAux sep s.data).map String.mk

/-- Model of Python `str.split("\n")`, used throughout `_install_rpms` to turn
guest command output into a list of lines. -/
def splitNl (s : String) : List String :=
  pySplit '\n' s

/-- Model of Python `lst[-1]` on the (always non-empty) result of `str.split`. -/
def pyLast (l : List String) : String :=
  l.getLastD ""

/-- Boolean prefix test on strings, via the character lists
(models `re.match(r"^src.*", s)`-style anchored prefix matching). -/
def strStartsWith (s p : String) : Bool :=
  p.data.isPrefixOf s.data

/-- Boolean suffix test on strings, via the character lists
(models `re.match(r".*-debug(info|source)$", s)`-style suffix matching). -/
def strEndsWith (s p : String) : Bool :=
  p.data.isSuffixOf s.data

/-- Whether `p` occurs as a contiguous infix of `l`. -/
def listIsInfixOf (p : List Char) : List Char → Bool
  | [] => p.isEmpty
  | c :: rest => p.isPrefixOf (c :: rest) || listIsInfixOf p rest

/-- Boolean substring test: does the command string `s` contain `p`? -/
def strContains (s p : String) : Bool :=
  listIsInfixOf p.data s.data

/-- Lexicographic comparison of character lists by code point, the order
Python's `sorted` uses on strings. -/
def lexLe : List Char → List Char → Bool
  | [], _ => true
  | _ :: _, [] => false
  | a :: as, b :: bs => if a = b then lexLe as bs else decide (a.toNat < b.toNat)

/-- Lexicographic string comparison by code point (Python's string order). -/
def strLe (a b : String) : Bool :=
  lexLe a.data b.data

/-- Suffix of the list strictly after its last `':'`, when the list contains
one. -/
def lastColonSplit : List Char → Option (List Char)
  | [] => none
  | c :: rest =>
    match lastColonSplit rest with
    | some suf => some suf
    | none => if c = ':' then some rest else none

/-- Model of Python `re.sub(".+:", "", s)` (source line 370): the regex matches
iff `s` has a `':'` at an index `≥ 1`; the leftmost-longest match then starts
at index 0 and runs through the last `':'`, so the result is the suffix after
the last colon; otherwise `s` is returned unchanged. -/
def re_sub_dot_plus_colon (s : String) : String :=
  match s.data with
  | [] => s
  | _ :: rest =>
    match lastColonSplit rest with
    | some suf => String.mk suf
    | none => s

/-- Model of Python `" ".join(lst)` (source line 409). -/
def join_space : List String → String
  | [] => ""
  | [x] => x
  | x :: y :: rest => x ++ " " ++ join_space (y :: rest)

/-! ## Guest command strings built by `Qcow2._install_rpms`

Each definition reproduces, character for character, a command string the
Python code formats before handing it to `guestfs.sh`. -/

/-- `self.dest_base_repo_path` set in `Qcow2.__init__` (source line 233). -/
def dest_base_repo_path : String := "/opt/task_repos"

/-- The repo scoping used by every repoquery in `_install_rpms` (source line
342): `"--disablerepo=* --enablerepo={0} --repofrompath={0},{1}/{0}"`
formatted with the task id and `dest_base_repo_path`. -/
def repo_query_param (task_id : Nat) : String :=
  "--disablerepo=* --enablerepo=" ++ toString task_id ++
    " --repofrompath=" ++ toString task_id ++ "," ++ dest_base_repo_path ++
    "/" ++ toString task_id

/-- Source line 325: the baseline query for the conflict capabilities of every
already-installed package (backquotes and single quotes written as character
escapes). -/
def installed_conflict_query_cmd : String :=
  "dnf repoquery -q --conflict \x60rpm -qa --qf \x27%\x7bNAME\x7d \x27\x60"

/-- Source lines 346 and 391: which packages of the task repo provide a given
capability. -/
def whatprovides_cmd (rqp cap : String) : String :=
  "dnf repoquery -q --qf \"%\x7bNAME\x7d\" " ++ rqp ++
    " --whatprovides \"" ++ cap ++ "\""

/-- Source line 356: every `(arch, name)` pair offered by the task repo. -/
def all_pkgs_cmd (rqp : String) : String :=
  "dnf repoquery -q " ++ rqp ++ " --all --qf=\"%\x7bARCH\x7d:%\x7bNAME\x7d\""

/-- Source line 384: the capabilities a candidate package conflicts with. -/
def pkg_conflict_cmd (rqp pkg : String) : String :=
  "dnf repoquery -q " ++ rqp ++ " --conflict " ++ pkg

/-- Source line 410: the final install transaction. Note that, unlike every
query above, it does not include `repo_query_param`. -/
def install_cmd (rpm_list_str : String) : String :=
  "dnf install -y --best --allowerasing --nogpgcheck " ++ rpm_list_str

/-! ## The conflict-aware installer (`Qcow2._install_rpms`)

The guest is a deterministic oracle from the command string sent through
`guestfs.sh` to the output string the guest returns.  This pure model covers
the runs in which every guest query succeeds; the retry behaviour of the
baseline query on guest failures is modelled separately below. -/

/-- The guest of a mounted image: command string in, captured stdout out. -/
structure Guest where
  sh : String → String

/-- Source lines 340-353: the forbidden-by-installed set.  For each line of
the baseline query output (a capability some installed package conflicts
with, including a possible empty line), ask which task-repo packages provide
it and, when the raw output is non-empty, accumulate its lines. -/
def installed_conflicts_of (g : Guest) (task_id : Nat) : List String :=
  let rqp := repo_query_param task_id
  (splitNl (g.sh installed_conflict_query_cmd)).foldl
    (fun acc conflict_cap =>
      let pkg_conflict := g.sh (whatprovides_cmd rqp conflict_cap)
      if pkg_conflict ≠ "" then acc ++ splitNl pkg_conflict else acc)
    []

/-- Source lines 364-377, the per-line candidate filter: drop lines starting
with `"src"` (`re.match(r"^src.*", raw_pkg)`), strip everything through the
last colon (`re.sub(".+:", "", raw_pkg)`), drop empty names, drop names
ending in `-debuginfo` or `-debugsource`. -/
def keep_candidate (raw_pkg : String) : Option String :=
  if strStartsWith raw_pkg "src" then none
  else
    let name := re_sub_dot_plus_colon raw_pkg
    if name = "" then none
    else if strEndsWith name "-debuginfo" || strEndsWith name "-debugsource" then none
    else some name

/-- Source lines 355-377: candidate enumeration over the staged repository of
`task_id`, ending in Python's `sorted(pkgs)` (modelled by a stable insertion
sort under the lexicographic string order, which agrees with `sorted` on the
resulting list).  No deduplication is performed by the source. -/
def candidate_pkgs (g : Guest) (task_id : Nat) : List String :=
  List.insertionSort (fun a b => strLe a b = true)
    ((splitNl (g.sh (all_pkgs_cmd (repo_query_param task_id)))).foldl
      (fun acc raw_pkg =>
        match keep_candidate raw_pkg with
        | none => acc
        | some name => acc ++ [name])
      [])

/-- Source lines 383-397: the `found_conflict` flag for one candidate.  For
every non-empty line of the candidate's own `--conflict` query, ask which
task-repo packages provide that capability and check whether any of them is
already in the accumulated `rpm_list`. -/
def found_conflict (g : Guest) (rqp : String) (rpm_list : List String) (pkg : String) : Bool :=
  (splitNl (g.sh (pkg_conflict_cmd rqp pkg))).any fun conflict_cap =>
    if conflict_cap = "" then false
    else (splitNl (g.sh (whatprovides_cmd rqp conflict_cap))).any
      fun conflict => rpm_list.contains conflict

/-- Whether the single earlier-accepted package `prior` provides a non-empty
capability that the candidate `pkg` declares a conflict with, as observed
through the same two queries `found_conflict` issues. -/
def conflicts_with_prior (g : Guest) (rqp : String) (prior pkg : String) : Bool :=
  (splitNl (g.sh (pkg_conflict_cmd rqp pkg))).any fun conflict_cap =>
    if conflict_cap = "" then false
    else (splitNl (g.sh (whatprovides_cmd rqp conflict_cap))).contains prior

/-- Source lines 382-404, body of the candidate loop: reject on
`found_conflict`, then reject when the candidate is in the
forbidden-by-installed set, otherwise append. -/
def plan_step (g : Guest) (rqp : String) (ic : List String)
    (rpm_list : List String) (pkg : String) : List String :=
  if found_conflict g rqp rpm_list pkg then rpm_list
  else if ic.contains pkg then rpm_list
  else rpm_list ++ [pkg]

/-- Source lines 381-404: the accepted install plan (`rpm_list`), obtained by
folding the candidate loop over the sorted candidates. -/
def plan_fold (g : Guest) (task_id : Nat) : List String :=
  (candidate_pkgs g task_id).foldl
    (plan_step g (repo_query_param task_id) (installed_conflicts_of g task_id))
    []

/-- Message of the exception raised at source line 379 (`NoCandidatesError`
in the specification's nomenclature). -/
def no_candidates_msg : String := "Couldn\x27t find any package to install"

/-- Message of the exception raised at source line 407 (`EmptyPlanError`). -/
def empty_plan_msg : String := "There is no suitable rpm to be installed"

/-- Message of the exception raised at source line 338 (`QueryError`). -/
def query_conflict_err_msg : String := "Could not query conflict of installed packages"

/-- The plan-computation part of `_install_rpms` for runs in which every guest
query succeeds: candidate enumeration, the two failure conditions of source
lines 378-379 and 406-407, and the accepted plan. -/
def install_rpms (g : Guest) (task_id : Nat) : Except String (List String) :=
  let pkgs := candidate_pkgs g task_id
  if pkgs.isEmpty then .error no_candidates_msg
  else
    let rpm_list := plan_fold g task_id
    if rpm_list.isEmpty then .error empty_plan_msg
    else .ok rpm_list

/-- Source lines 409-419 composed after the plan: the single
`dnf install -y --best --allowerasing --nogpgcheck` transaction over the
space-joined plan, failing with `"Couldn't install <list>"` when the guest
command fails.  On success it returns the accepted plan together with the
exact command string dispatched to the guest. -/
def install_rpms_result (g : Guest) (install_ok : Bool) (task_id : Nat) :
    Except String (List String × String) :=
  match install_rpms g task_id with
  | .error e => .error e
  | .ok rpm_list =>
    let rpm_list_str := join_space rpm_list
    if install_ok then .ok (rpm_list, install_cmd rpm_list_str)
    else .error ("Couldn\x27t install " ++ rpm_list_str)

/-! ## Retry behaviour of the baseline conflict query

Source lines 327-338: `for i in range(5)` around `self.g.sh(cmd)`, where a
`RuntimeError` logs a warning and goes straight to the next iteration.  The
loop body contains no `time.sleep` call.  The guest is abstracted by an
attempt oracle giving, for each attempt index, either the query output or
`none` for a guest-command failure; the trace records every effect of the
loop in order. -/

/-- An observable effect of guest-facing code: a dispatched shell command, or
a `time.sleep` call (never emitted by this loop, which has none). -/
inductive GuestEvent where
  | sh : String → GuestEvent
  | sleep : Nat → GuestEvent
  deriving DecidableEq

/-- Whether an event is a `time.sleep` call. -/
def is_sleep_event : GuestEvent → Bool
  | .sleep _ => true
  | _ => false

/-- The `for i in range(5)` loop of source lines 328-336, with `fuel` the
remaining iterations: each iteration dispatches the baseline query and either
returns its output or continues with the next attempt. -/
def baseline_query_loop (attempt : Nat → Option String) :
    Nat → Nat → List GuestEvent × Option String
  | _, 0 => ([], none)
  | i, fuel + 1 =>
    match attempt i with
    | some out => ([.sh installed_conflict_query_cmd], some out)
    | none =>
      let r := baseline_query_loop attempt (i + 1) fuel
      (.sh installed_conflict_query_cmd :: r.1, r.2)

/-- Source lines 327-338: run the 5-attempt loop; if no attempt succeeded,
raise `"Could not query conflict of installed packages"`. -/
def baseline_query_run (attempt : Nat → Option String) :
    List GuestEvent × Except String String :=
  match baseline_query_loop attempt 0 5 with
  | (tr, some out) => (tr, .ok out)
  | (tr, none) => (tr, .error query_conflict_err_msg)

/-! ## `Koji.download_task` (source lines 189-224)

The download command is built from the scratch flag, the directory-exists
check short-circuits, and the koji subprocess is invoked exactly once — the
function contains no retry loop. -/

/-- An observable effect of `Koji.download_task`. -/
inductive KojiEvent where
  | makeDirs : String → KojiEvent
  | runCmd : String → KojiEvent
  deriving DecidableEq

/-- Source line 198: `default_params`. -/
def default_arch_params : String := "--arch=x86_64 --arch=src --arch=noarch"

/-- Source lines 199-202: the koji command, `download-task` for scratch
builds and `download-build --debuginfo --task-id` otherwise. -/
def download_task_cmd (koji_params : String) (is_scratch : Bool) (task_id : Nat) : String :=
  if is_scratch then
    "koji " ++ koji_params ++ " download-task " ++ default_arch_params ++ " "
      ++ toString task_id
  else
    "koji " ++ koji_params ++ " download-build " ++ default_arch_params
      ++ " --debuginfo --task-id " ++ toString task_id

/-- Message of the exception raised at source line 219 (`FetchError`). -/
def download_task_err_msg : String := "Couldn\x27t download task rpms"

/-- Source lines 189-224: skip when the target directory already exists,
otherwise create it and run the koji download subprocess exactly once,
raising on a non-zero exit. -/
def download_task (dir_exists : Bool) (cmd_ok : Bool) (koji_params : String)
    (is_scratch : Bool) (task_id : Nat) (task_repo : String) :
    List KojiEvent × Except String Bool :=
  if dir_exists then ([], .ok true)
  else
    let events := [KojiEvent.makeDirs task_repo,
                   KojiEvent.runCmd (download_task_cmd koji_params is_scratch task_id)]
    if cmd_ok then (events, .ok true) else (events, .error download_task_err_msg)

/-! ## `download_qcow2` (source lines 88-130)

Release-to-URL resolution, the skip-if-present check, and the single curl
invocation (whose own flags carry the bounded retry policy). -/

/-- Source line 94. -/
def jenkins_base_url : String :=
  "https://jenkins-continuous-infra.apps.ci.centos.org/job"

/-- Source line 96: the rawhide artifact URL. -/
def rawhide_qcow2_url : String :=
  jenkins_base_url ++ "/fedora-rawhide-image-test/lastSuccessfulBuild/artifact/Fedora-Rawhide.qcow2"

/-- Source line 98: the `f<N>` artifact URL built from the captured digit
group. -/
def fnum_qcow2_url (n : String) : String :=
  jenkins_base_url ++ "/fedora-f" ++ n ++ "-image-test/lastSuccessfulBuild/artifact/Fedora-"
    ++ n ++ ".qcow2"

/-- Model of `re.match(r"f(\d+)", release)` (source line 93): anchored at the
start only, not at the end; it succeeds iff the string starts with `'f'`
followed by at least one digit, capturing the maximal leading digit run and
ignoring everything after it. -/
def re_match_f_digits (s : String) : Option String :=
  match s.data with
  | [] => none
  | c :: rest =>
    if c = 'f' then
      if (rest.takeWhile Char.isDigit).isEmpty then none
      else some (String.mk (rest.takeWhile Char.isDigit))
    else none

/-- Release strings of the form `f<N>` exactly as the specification words it:
an `f` followed by one or more digits and nothing else.  This definition
follows the spec's words (not the source) and exists to be compared against
the source's unanchored `re.match(r"f(\d+)", ...)`. -/
def spec_form_f_num (s : String) : Bool :=
  match s.data with
  | [] => false
  | c :: rest => c = 'f' && !rest.isEmpty && rest.all Char.isDigit

/-- Whether the string starts with `'f'` followed by a digit — the condition
under which the source's `re.match(r"f(\d+)", release)` succeeds. -/
def starts_with_f_digit (s : String) : Bool :=
  match s.data with
  | c :: d :: _ => c = 'f' && d.isDigit
  | _ => false

/-- Source lines 92-100: resolve the release to a download URL, raising
`"Unsupported release <release>"` when neither branch applies
(`UnsupportedReleaseError`). -/
def resolve_qcow2_url (release : String) : Except String String :=
  if release = "rawhide" then .ok rawhide_qcow2_url
  else
    match re_match_f_digits release with
    | some n => .ok (fnum_qcow2_url n)
    | none => .error ("Unsupported release " ++ release)

/-- Source line 111: the curl command; its flags (not a Python loop) carry
the download retry policy. -/
def curl_cmd (url : String) : String :=
  "curl --fail --connect-timeout 5 --retry 10 --retry-delay 0 --retry-max-time 60 -C - -L -k -O "
    ++ url

/-- An observable effect of `download_qcow2`: the single curl subprocess. -/
inductive FetchEvent where
  | curl : String → FetchEvent
  deriving DecidableEq

/-- Source line 102: `"{}/{}".format(this.artifacts, url.split("/")[-1])`. -/
def qcow2_file_path (artifacts url : String) : String :=
  artifacts ++ "/" ++ pyLast (pySplit '/' url)

/-- Message of the exception raised at source line 124 (`DownloadError`). -/
def download_qcow2_err_msg : String := "Couldn\x27t download qcow2"

/-- Source lines 88-130: resolve the URL, return the local file unchanged
when it already exists (no subprocess dispatched), otherwise invoke curl once
and fail with `download_qcow2_err_msg` on a non-zero exit.  `is_file` models
`os.path.isfile`, `curl_ok` the curl exit status. -/
def download_qcow2 (artifacts : String) (is_file : String → Bool) (curl_ok : Bool)
    (release : String) : List FetchEvent × Except String String :=
  match resolve_qcow2_url release with
  | .error e => ([], .error e)
  | .ok url =>
    let qcow2_file := qcow2_file_path artifacts url
    if is_file qcow2_file then ([], .ok qcow2_file)
    else if curl_ok then ([.curl (curl_cmd url)], .ok qcow2_file)
    else ([.curl (curl_cmd url)], .error download_qcow2_err_msg)

/-! ## `Qcow2.prepare_qcow2` (source lines 421-486)

The session steps are modelled as an ordered event trace with an oracle for
the success of each guest-facing step; failure short-circuits with the exact
exception message of the source. -/

/-- An observable step of `prepare_qcow2` inside the guest: the filesystem
mount, a raw shell command, writing the koji-latest repo definition
(`_add_latest_repo`), copying one task repo directory in (`copy_in repo`),
copying its generated repo-definition file in, one `_install_rpms(task_id)`
invocation, and the final SELinux relabel. -/
inductive PrepEvent where
  | mount : PrepEvent
  | sh : String → PrepEvent
  | addLatestRepo : String → PrepEvent
  | stageRepo : String → PrepEvent
  | stageRepoDef : String → PrepEvent
  | installTask : Nat → PrepEvent
  | relabel : PrepEvent
  deriving DecidableEq

/-- Success/failure oracle for the guest-facing steps of `prepare_qcow2`:
the mount, the release-dependent repo mutation, `_add_latest_repo` (which
includes the rawhide dist-number lookup), each `copy_in` of a task repo (one
outcome covering the two copies of source lines 265 and 281), each
`_install_rpms` run, the upgrade, the SELinux config parse and the relabel. -/
structure PrepOracle where
  mount : Except String Unit
  relMutOk : Bool
  latest : Except String Unit
  copyRepo : String → Except String Unit
  install : Nat → Except String Unit
  upgradeOk : Bool
  seType : Option String
  relabelOk : Bool

/-- Source lines 434-443: the release-dependent mutation of the guest's
pre-existing repo definitions — for rawhide, rewrite `gpgcheck` to `0` in
every `/etc/yum.repos.d/*.repo` file via sed; for any other release, enable
the updates-testing repositories. -/
def rel_mut_cmd (release : String) : String :=
  if release = "rawhide" then "sed -i s/gpgcheck=.*/gpgcheck=0/ /etc/yum.repos.d/*.repo"
  else "dnf config-manager --set-enable updates-testing updates-testing-debuginfo"

/-- Source lines 440 and 446: the exception message when the release-dependent
repo mutation fails. -/
def rel_mut_err (release : String) : String :=
  if release = "rawhide" then "Couldn\x27t disable gpgcheck"
  else "Couldn\x27t enable updates testing repos"

/-- Model of `os.path.basename` on the repo paths built by `main`. -/
def basename (path : String) : String :=
  pyLast (pySplit '/' path)

/-- Source lines 252-288, `_copy_task_repos`: for each staged repo directory,
copy it into `/opt/task_repos` and copy the generated `test-<name>.repo`
definition into `/etc/yum.repos.d`; a copy failure raises immediately. -/
def copy_task_repos (copyRepo : String → Except String Unit) :
    List String → List PrepEvent × Except String Unit
  | [] => ([], .ok ())
  | repo :: rest =>
    match copyRepo repo with
    | .error e => ([.stageRepo repo], .error e)
    | .ok _ =>
      let r := copy_task_repos copyRepo rest
      (.stageRepo repo :: .stageRepoDef ("test-" ++ basename repo ++ ".repo") :: r.1, r.2)

/-- Source lines 455-458: `for task_id in task_ids: self._install_rpms(task_id)`,
aborting on the first failing task. -/
def install_tasks (install : Nat → Except String Unit) :
    List Nat → List PrepEvent × Except String Unit
  | [] => ([], .ok ())
  | t :: rest =>
    match install t with
    | .error e => ([.installTask t], .error e)
    | .ok _ =>
      let r := install_tasks install rest
      (.installTask t :: r.1, r.2)

/-- Message of the exception raised at source line 466 (`UpgradeError`). -/
def upgrade_err_msg : String := "Couldn\x27t upgrade system"

/-- Message of the exception raised at source line 476 (`PolicyTypeError`). -/
def setype_err_msg : String := "Could not parse SElinux policy type"

/-- Message of the exception raised at source line 483 (`RelabelError`). -/
def relabel_err_msg : String := "Couldn\x27t relabel selinux contexts"

/-- Source lines 469-486: parse the SELinux policy type and relabel. -/
def prep_finish (o : PrepOracle) (tr : List PrepEvent) :
    List PrepEvent × Except String Bool :=
  match o.seType with
  | none => (tr, .error setype_err_msg)
  | some _ =>
    if o.relabelOk then (tr ++ [.relabel], .ok true)
    else (tr ++ [.relabel], .error relabel_err_msg)

/-- Source lines 460-467: the optional `dnf upgrade -y`. -/
def prep_upgrade (o : PrepOracle) (sys_update : Bool) (tr : List PrepEvent) :
    List PrepEvent × Except String Bool :=
  if sys_update then
    if o.upgradeOk then prep_finish o (tr ++ [.sh "dnf upgrade -y"])
    else (tr ++ [.sh "dnf upgrade -y"], .error upgrade_err_msg)
  else prep_finish o tr

/-- Source lines 454-458: run `_install_rpms` over the primary task ids when
`task_ids and install_rpms` holds, then continue with the upgrade/finish
steps. -/
def prep_install_step (o : PrepOracle) (task_ids : List Nat)
    (install_rpms_flag sys_update : Bool) (tr : List PrepEvent) :
    List PrepEvent × Except String Bool :=
  match (install_tasks o.install (if install_rpms_flag then task_ids else [])).2 with
  | .error e =>
    (tr ++ (install_tasks o.install (if install_rpms_flag then task_ids else [])).1, .error e)
  | .ok _ =>
    prep_upgrade o sys_update
      (tr ++ (install_tasks o.install (if install_rpms_flag then task_ids else [])).1)

/-- Source lines 451-452: stage the task repos, then continue. -/
def prep_copy_step (o : PrepOracle) (task_repos : List String) (task_ids : List Nat)
    (install_rpms_flag sys_update : Bool) (tr : List PrepEvent) :
    List PrepEvent × Except String Bool :=
  match (copy_task_repos o.copyRepo task_repos).2 with
  | .error e => (tr ++ (copy_task_repos o.copyRepo task_repos).1, .error e)
  | .ok _ =>
    prep_install_step o task_ids install_rpms_flag sys_update
      (tr ++ (copy_task_repos o.copyRepo task_repos).1)

/-- Source lines 448-449: `_add_latest_repo`, then continue. -/
def prep_latest_step (o : PrepOracle) (release : String) (task_repos : List String)
    (task_ids : List Nat) (install_rpms_flag sys_update : Bool) (tr : List PrepEvent) :
    List PrepEvent × Except String Bool :=
  match o.latest with
  | .error e => (tr ++ [.addLatestRepo release], .error e)
  | .ok _ => prep_copy_step o task_repos task_ids install_rpms_flag sys_update
      (tr ++ [.addLatestRepo release])

/-- Source lines 421-486, `prepare_qcow2`: mount, release-dependent repo
mutation, `_add_latest_repo`, `_copy_task_repos`, the `_install_rpms` loop
over `task_ids` (guarded by `task_ids and install_rpms`), the optional
upgrade, and the SELinux finish. -/
def prepare_qcow2 (o : PrepOracle) (release : String) (task_repos : List String)
    (task_ids : List Nat) (install_rpms_flag sys_update : Bool) :
    List PrepEvent × Except String Bool :=
  match o.mount with
  | .error e => ([], .error e)
  | .ok _ =>
    if o.relMutOk = false then
      ([.mount, .sh (rel_mut_cmd release)], .error (rel_mut_err release))
    else
      prep_latest_step o release task_repos task_ids install_rpms_flag sys_update
        [.mount, .sh (rel_mut_cmd release)]

/-- The staged repo directories occurring in a trace, in order. -/
def staged_of (tr : List PrepEvent) : List String :=
  tr.filterMap fun e =>
    match e with
    | .stageRepo r => some r
    | _ => none

/-- The task ids handed to `_install_rpms` in a trace, in order. -/
def installed_of (tr : List PrepEvent) : List Nat :=
  tr.filterMap fun e =>
    match e with
    | .installTask t => some t
    | _ => none

/-! ## `main` and the process boundary (source lines 489-556) -/

/-- Source lines 523-524: the local directory a task's rpms are downloaded
into, `"{artifacts}/task_repos/{task_id}"`. -/
def task_repo_path (artifacts : String) (task_id : Nat) : String :=
  artifacts ++ "/task_repos/" ++ toString task_id

/-- Source line 520: `repo_task_ids = args.task_ids + args.additional_task_ids`
— primary and additional ids are concatenated for download and staging. -/
def main_repo_task_ids (task_ids additional_task_ids : List Nat) : List Nat :=
  task_ids ++ additional_task_ids

/-- Source lines 518-527: the `task_repos` list built by `main` and later
passed to `prepare_qcow2` — one staged repo per primary or additional id. -/
def main_staged_repos (artifacts : String) (task_ids additional_task_ids : List Nat) :
    List String :=
  (main_repo_task_ids task_ids additional_task_ids).map (task_repo_path artifacts)

/-- Source line 537: `main` calls `prepare_qcow2` with the full staged repo
list but only the primary `args.task_ids` as the ids to install. -/
def main_prepare (o : PrepOracle) (release artifacts : String)
    (task_ids additional_task_ids : List Nat) (install_rpms_flag sys_update : Bool) :
    List PrepEvent × Except String Bool :=
  prepare_qcow2 o release (main_staged_repos artifacts task_ids additional_task_ids)
    task_ids install_rpms_flag sys_update

/-- The JSON result record of source lines 541 and 552: status, image path or
`None`, optional error reason, log path. -/
structure ResultRecord where
  status : Nat
  image : Option String
  error_reason : Option String
  log : String
  deriving DecidableEq

/-- The observable outcome of one process run: the exit code and the result
record written to `virt-customize.json`, if any. -/
structure RunOutcome where
  exitCode : Nat
  written : Option ResultRecord
  deriving DecidableEq

/-- Source line 514: `this.output_log`. -/
def output_log_path (artifacts : String) : String :=
  artifacts ++ "/virt-customize.log"

/-- Source lines 489-556, the process boundary.  `args_ok` models argparse
succeeding (on a parse error argparse raises `SystemExit(2)`, which
`except Exception` at line 549 does not catch: exit code 2, no record
written).  `artifacts_dir_ok` models `os.makedirs` at line 510 succeeding
(on failure the handler at line 550 dereferences `this.logger`, which is
still `None`, so the handler itself dies with `AttributeError` before
reaching the `json.dump`: exit code 1, no record written).  After those two
steps `this.result_file` and the logger are configured, and every later
exception reaches the handler, which writes the failure record and exits 1;
a completed `main` writes the success record and exits 0. -/
def run_pipeline (args_ok : Bool) (artifacts_dir_ok : Bool) (artifacts : String)
    (pipeline : Except String String) : RunOutcome :=
  if args_ok = false then ⟨2, none⟩
  else if artifacts_dir_ok = false then ⟨1, none⟩
  else
    match pipeline with
    | .ok image_path =>
      ⟨0, some ⟨0, some image_path, none, output_log_path artifacts⟩⟩
    | .error msg =>
      ⟨1, some ⟨1, none, some msg, output_log_path artifacts⟩⟩

/-! ## Concrete guests and oracles used by the witnesses and counterexamples -/

/-- A guest whose image has one installed conflict capability `capI`,
provided in the task-7 repo by `pkgbad`, and whose repo offers `pkgbad` and
`pkggood`. -/
def guest_baseline_conflict : Guest :=
  ⟨fun cmd =>
    if cmd = installed_conflict_query_cmd then "capI"
    else if cmd = whatprovides_cmd (repo_query_param 3) "capI" then "pkgbad"
    else if cmd = all_pkgs_cmd (repo_query_param 3) then "x86_64:pkgbad\nx86_64:pkggood"
    else ""⟩

/-- The spec's order-dependence scenario for task 7: the repo offers `A` and
`B`, `A` declares a conflict with capability `capC`, and `B` provides `capC`;
no installed package conflicts with anything. -/
def guest_A_conflicts_B_provides : Guest :=
  ⟨fun cmd =>
    if cmd = all_pkgs_cmd (repo_query_param 7) then "x86_64:A\nx86_64:B"
    else if cmd = pkg_conflict_cmd (repo_query_param 7) "A" then "capC"
    else if cmd = whatprovides_cmd (repo_query_param 7) "capC" then "B"
    else ""⟩

/-- A task-9 repo offering the same package name `foo` for two architectures
(`x86_64` and `noarch`) — the repoquery output the dedup claim is tested
against. -/
def guest_duplicate_name : Guest :=
  ⟨fun cmd =>
    if cmd = all_pkgs_cmd (repo_query_param 9) then "x86_64:foo\nnoarch:foo" else ""⟩

/-- A task-7 repo offering the single conflict-free package `pkgA`. -/
def guest_single_pkg : Guest :=
  ⟨fun cmd =>
    if cmd = all_pkgs_cmd (repo_query_param 7) then "x86_64:pkgA" else ""⟩

/-- An attempt oracle whose first two baseline queries fail with a guest
error and whose third succeeds. -/
def attempt_fail_twice (i : Nat) : Option String :=
  if i < 2 then none else some "capX"

/-- An attempt oracle for which every baseline query fails. -/
def attempt_all_fail (_ : Nat) : Option String :=
  none

/-- A prepare oracle in which every guest step succeeds. -/
def prep_oracle_ok : PrepOracle :=
  ⟨.ok (), true, .ok (), fun _ => .ok (), fun _ => .ok (), true, some "targeted", true⟩

/-- A prepare oracle in which the release-dependent repo mutation fails and
everything else succeeds. -/
def prep_oracle_relmut_fail : PrepOracle :=
  ⟨.ok (), false, .ok (), fun _ => .ok (), fun _ => .ok (), true, some "targeted", true⟩

/-! ## Helper lemmas -/

/-- Membership transfer for the `List.contains` checks the installer model
uses (Python `in`). -/
theorem contains_eq_true_iff_mem (l : List String) (x : String) :
    l.contains x = true ↔ x ∈ l :=
  List.elem_iff

/-- Characters with equal code points are equal. -/
theorem char_ne_toNat_ne {a b : Char} (h : ¬ a = b) : a.toNat ≠ b.toNat := by
  intro hn
  apply h
  apply Char.ext
  exact UInt32.ext hn

/-- Totality of the code-point lexicographic order. -/
theorem lexLe_total : ∀ as bs, lexLe as bs = true ∨ lexLe bs as = true := by
  intro as
  induction as with
  | nil => intro bs; left; rfl
  | cons a as ih =>
    intro bs
    cases bs with
    | nil => right; rfl
    | cons b bs =>
      by_cases hab : a = b
      · subst hab
        rcases ih bs with h | h
        · left; simp [lexLe, h]
        · right; simp [lexLe, h]
      · have hba : ¬ b = a := fun h => hab h.symm
        rcases Nat.lt_or_ge a.toNat b.toNat with h | h
        · left; simp [lexLe, hab, h]
        · have hlt : b.toNat < a.toNat :=
            Nat.lt_of_le_of_ne h (fun hn => char_ne_toNat_ne hba hn)
          right; simp [lexLe, hba, hlt]

/-- Transitivity of the code-point lexicographic order. -/
theorem lexLe_trans :
    ∀ as bs cs, lexLe as bs = true → lexLe bs cs = true → lexLe as cs = true := by
  intro as
  induction as with
  | nil => intros; rfl
  | cons a as ih =>
    intro bs cs h1 h2
    cases bs with
    | nil => simp [lexLe] at h1
    | cons b bs =>
      cases cs with
      | nil => simp [lexLe] at h2
      | cons c cs =>
        simp only [lexLe] at h1 h2 ⊢
        by_cases hab : a = b
        · subst hab
          rw [if_pos rfl] at h1
          by_cases hbc : a = c
          · subst hbc
            rw [if_pos rfl] at h2 ⊢
            exact ih bs cs h1 h2
          · rw [if_neg hbc] at h2 ⊢
            exact h2
        · rw [if_neg hab] at h1
          by_cases hbc : b = c
          · subst hbc
            rw [if_neg hab]
            exact h1
          · rw [if_neg hbc] at h2
            have h1n := of_decide_eq_true h1
            have h2n := of_decide_eq_true h2
            have hac : a.toNat < c.toNat := Nat.lt_trans h1n h2n
            have hane : ¬ a = c := by
              intro h
              subst h
              exact Nat.lt_irrefl _ hac
            rw [if_neg hane]
            exact decide_eq_true hac

instance : IsTotal String (fun a b => strLe a b = true) :=
  ⟨fun a b => lexLe_total a.data b.data⟩

instance : IsTrans String (fun a b => strLe a b = true) :=
  ⟨fun a b c => lexLe_trans a.data b.data c.data⟩

/-- The candidate-loop accumulator never gains a member of the
forbidden-by-installed set: every append is guarded by the membership check
of source line 401. -/
theorem plan_fold_invariant_ic (g : Guest) (rqp : String) (ic : List String) :
    ∀ (pkgs acc : List String), (∀ x ∈ acc, x ∉ ic) →
      ∀ x ∈ pkgs.foldl (plan_step g rqp ic) acc, x ∉ ic := by
  intro pkgs
  induction pkgs with
  | nil => intro acc hacc; simpa using hacc
  | cons p ps ih =>
    intro acc hacc x hx
    refine ih (plan_step g rqp ic acc p) ?_ x hx
    intro y hy
    unfold plan_step at hy
    split at hy
    · exact hacc y hy
    · split at hy
      · exact hacc y hy
      · rename_i hnc
        rcases List.mem_append.mp hy with h | h
        · exact hacc y h
        · simp only [List.mem_singleton] at h
          subst h
          intro hmem
          exact hnc (List.elem_iff.mpr hmem)

/-- When the `found_conflict` flag of source lines 383-397 is false, no
already-accepted package provides a capability the candidate conflicts
with. -/
theorem found_conflict_false_all (g : Guest) (rqp : String) (acc : List String) (p : String)
    (hfc : found_conflict g rqp acc p = false) :
    ∀ a ∈ acc, conflicts_with_prior g rqp a p = false := by
  intro a ha
  unfold conflicts_with_prior
  unfold found_conflict at hfc
  rw [List.any_eq_false] at hfc ⊢
  intro cap hcap
  have h := hfc cap hcap
  by_cases hc : cap = ""
  · simp [hc]
  · rw [if_neg hc] at h ⊢
    rw [Bool.not_eq_true, List.any_eq_false] at h
    rw [Bool.not_eq_true]
    by_contra hcon
    rw [Bool.not_eq_false] at hcon
    have hmem := List.elem_iff.mp hcon
    have h2 := h a hmem
    rw [Bool.not_eq_true] at h2
    have hel := List.elem_iff.mpr ha
    rw [show List.elem a acc = acc.contains a from rfl] at hel
    rw [h2] at hel
    exact Bool.false_ne_true hel

/-- The candidate loop preserves pairwise freedom from prior-provider
conflicts. -/
theorem plan_fold_pairwise (g : Guest) (rqp : String) (ic : List String) :
    ∀ (pkgs acc : List String),
      acc.Pairwise (fun a b => conflicts_with_prior g rqp a b = false) →
      (pkgs.foldl (plan_step g rqp ic) acc).Pairwise
        (fun a b => conflicts_with_prior g rqp a b = false) := by
  intro pkgs
  induction pkgs with
  | nil => intro acc h; simpa using h
  | cons p ps ih =>
    intro acc hacc
    apply ih
    unfold plan_step
    split
    · exact hacc
    · split
      · exact hacc
      · rename_i hfc hic
        rw [List.pairwise_append]
        refine ⟨hacc, by simp, ?_⟩
        intro a ha b hb
        simp only [List.mem_singleton] at hb
        subst hb
        exact found_conflict_false_all g rqp acc _ (by simpa using hfc) a ha

/-- A successful `install_rpms` run returns exactly `plan_fold`. -/
theorem install_rpms_ok_eq_plan_fold (g : Guest) (task_id : Nat) (plan : List String)
    (h : install_rpms g task_id = .ok plan) : plan = plan_fold g task_id := by
  unfold install_rpms at h
  by_cases h1 : (candidate_pkgs g task_id).isEmpty = true
  · rw [if_pos h1] at h
    exact absurd h (by simp)
  · rw [if_neg h1] at h
    by_cases h2 : (plan_fold g task_id).isEmpty = true
    · rw [if_pos h2] at h
      exact absurd h (by simp)
    · rw [if_neg h2] at h
      cases h
      rfl

/-- The candidate fold of `candidate_pkgs` is a `filterMap` over the
repoquery output lines. -/
theorem candidate_fold_eq_filterMap :
    ∀ (l acc : List String),
      l.foldl (fun acc raw_pkg => match keep_candidate raw_pkg with
        | none => acc
        | some name => acc ++ [name]) acc
      = acc ++ l.filterMap keep_candidate := by
  intro l
  induction l with
  | nil => intro acc; simp
  | cons x xs ih =>
    intro acc
    simp only [List.foldl_cons, List.filterMap_cons]
    cases h : keep_candidate x with
    | none => simp only [h]; rw [ih]
    | some name => simp only [h]; rw [ih, List.append_assoc]; rfl

/-- `candidate_pkgs` is the sorted `filterMap` of the repoquery lines. -/
theorem candidate_pkgs_eq (g : Guest) (task_id : Nat) :
    candidate_pkgs g task_id
      = List.insertionSort (fun a b => strLe a b = true)
          ((splitNl (g.sh (all_pkgs_cmd (repo_query_param task_id)))).filterMap keep_candidate) := by
  unfold candidate_pkgs
  rw [candidate_fold_eq_filterMap]
  rfl

/-- What a retained candidate line guarantees. -/
theorem keep_candidate_some {raw name : String} (h : keep_candidate raw = some name) :
    strStartsWith raw "src" = false ∧ re_sub_dot_plus_colon raw = name ∧ name ≠ ""
    ∧ strEndsWith name "-debuginfo" = false ∧ strEndsWith name "-debugsource" = false := by
  unfold keep_candidate at h
  by_cases h1 : strStartsWith raw "src"
  · rw [if_pos h1] at h
    exact absurd h (by simp)
  · rw [if_neg h1] at h
    simp only [] at h
    by_cases h2 : re_sub_dot_plus_colon raw = ""
    · rw [if_pos h2] at h
      exact absurd h (by simp)
    · rw [if_neg h2] at h
      by_cases h3 : (strEndsWith (re_sub_dot_plus_colon raw) "-debuginfo"
          || strEndsWith (re_sub_dot_plus_colon raw) "-debugsource") = true
      · rw [if_pos h3] at h
        exact absurd h (by simp)
      · rw [if_neg h3] at h
        have hname : re_sub_dot_plus_colon raw = name := by
          cases h
          rfl
        rw [Bool.or_eq_true] at h3
        push_neg at h3
        refine ⟨by simpa using h1, hname, ?_, ?_, ?_⟩
        · rw [← hname] at *
          exact h2
        · rw [← hname]
          simpa using h3.1
        · rw [← hname]
          simpa using h3.2

/-- A line passing all the filters of source lines 365-376 is retained. -/
theorem keep_candidate_eq_some {raw : String}
    (h1 : strStartsWith raw "src" = false)
    (h2 : re_sub_dot_plus_colon raw ≠ "")
    (h3 : strEndsWith (re_sub_dot_plus_colon raw) "-debuginfo" = false)
    (h4 : strEndsWith (re_sub_dot_plus_colon raw) "-debugsource" = false) :
    keep_candidate raw = some (re_sub_dot_plus_colon raw) := by
  unfold keep_candidate
  rw [if_neg (by simp [h1]), if_neg h2, if_neg (by simp [h3, h4])]

/-! ## Claims C1-C3 -/

/-- C1: for every run of the conflict-aware installer that returns an
install plan, every package name in the accepted plan is absent from the
forbidden-by-installed set — the union, over every capability any installed
package conflicts with (the lines of the baseline query), of the
candidate-repository package names providing that capability
(`installed_conflicts_of`, source lines 340-353, enforced at lines
401-403). -/
theorem c1_plan_avoids_installed_conflicts (g : Guest) (task_id : Nat)
    (plan : List String) (h : install_rpms g task_id = .ok plan) :
    ∀ pkg ∈ plan, pkg ∉ installed_conflicts_of g task_id := by
  have hplan := install_rpms_ok_eq_plan_fold g task_id plan h
  subst hplan
  exact plan_fold_invariant_ic g _ _ _ [] (by simp)

/-- Witness for C1: on `guest_baseline_conflict` the installer accepts
exactly `pkggood`, and the theorem yields that it is not forbidden. -/
theorem c1_plan_avoids_installed_conflicts_witness :
    "pkggood" ∉ installed_conflicts_of guest_baseline_conflict 3 :=
  c1_plan_avoids_installed_conflicts guest_baseline_conflict 3 ["pkggood"] rfl
    "pkggood" (by simp)

/-- C2 counterexample: in the spec's own scenario — the task-7 repository
offers `A` and `B`, `A` conflicts with capability `capC`, `B` provides
`capC`, processed in sorted order `A` then `B` — the code accepts BOTH
packages (the loop checks only the candidate's own conflict capabilities
against prior acceptances, never whether a prior acceptance conflicts with a
capability the candidate provides), whereas the claim requires `B` to be
rejected. -/
theorem c2_order_scenario_counterexample :
    install_rpms guest_A_conflicts_B_provides 7 = .ok ["A", "B"]
    ∧ "B" ∈ ["A", "B"] :=
  ⟨rfl, by simp⟩

/-- C2 as amended: for every pair of packages accepted into the same plan,
the later-processed one does not conflict with any capability the
earlier-accepted one provides (the only direction source lines 383-397
check); the symmetric direction does not hold, as the counterexample
shows. -/
theorem c2_pairwise_prior_conflict_free (g : Guest) (task_id : Nat)
    (plan : List String) (h : install_rpms g task_id = .ok plan) :
    plan.Pairwise (fun a b =>
      conflicts_with_prior g (repo_query_param task_id) a b = false) := by
  have hplan := install_rpms_ok_eq_plan_fold g task_id plan h
  subst hplan
  exact plan_fold_pairwise g _ _ _ [] (by simp)

/-- Witness for the amended C2 at the scenario guest: the accepted plan
`[A, B]` is pairwise free of later-conflicts-with-earlier-provider. -/
theorem c2_pairwise_prior_conflict_free_witness :
    (["A", "B"] : List String).Pairwise (fun a b =>
      conflicts_with_prior guest_A_conflicts_B_provides (repo_query_param 7) a b = false) :=
  c2_pairwise_prior_conflict_free guest_A_conflicts_B_provides 7 ["A", "B"] rfl

/-- C3 counterexample: the task-9 repository output offers the same name
`foo` for two architectures; the enumeration keeps BOTH occurrences — the
source sorts but never deduplicates — and the duplicate even reaches the
accepted plan, whereas the claim requires the candidate list to be
deduplicated. -/
theorem c3_no_dedup_counterexample :
    candidate_pkgs guest_duplicate_name 9 = ["foo", "foo"]
    ∧ ¬ (candidate_pkgs guest_duplicate_name 9).Nodup
    ∧ install_rpms guest_duplicate_name 9 = .ok ["foo", "foo"] :=
  ⟨by decide, by decide, rfl⟩

/-- C3 as amended: candidate enumeration drops every line starting with
`src` (so every `src`-architecture entry), every empty remaining name and
every name ending in `-debuginfo` or `-debugsource`, keeps everything else
(duplicates included — there is no deduplication), sorts the result by name,
and `install_rpms` fails with the no-candidates message exactly when the
resulting list is empty. -/
theorem c3_candidate_enumeration (g : Guest) (task_id : Nat) :
    List.Sorted (fun a b => strLe a b = true) (candidate_pkgs g task_id)
    ∧ (∀ name ∈ candidate_pkgs g task_id,
        name ≠ "" ∧ strEndsWith name "-debuginfo" = false
        ∧ strEndsWith name "-debugsource" = false
        ∧ ∃ raw ∈ splitNl (g.sh (all_pkgs_cmd (repo_query_param task_id))),
            strStartsWith raw "src" = false ∧ re_sub_dot_plus_colon raw = name)
    ∧ (∀ raw ∈ splitNl (g.sh (all_pkgs_cmd (repo_query_param task_id))),
        strStartsWith raw "src" = false →
        re_sub_dot_plus_colon raw ≠ "" →
        strEndsWith (re_sub_dot_plus_colon raw) "-debuginfo" = false →
        strEndsWith (re_sub_dot_plus_colon raw) "-debugsource" = false →
        re_sub_dot_plus_colon raw ∈ candidate_pkgs g task_id)
    ∧ (install_rpms g task_id = .error no_candidates_msg
        ↔ candidate_pkgs g task_id = []) := by
  refine ⟨?_, ?_, ?_, ?_⟩
  · rw [candidate_pkgs_eq]
    exact List.sorted_insertionSort _ _
  · intro name hname
    rw [candidate_pkgs_eq, List.mem_insertionSort, List.mem_filterMap] at hname
    obtain ⟨raw, hraw, hkeep⟩ := hname
    obtain ⟨hsrc, hsub, hne, hd1, hd2⟩ := keep_candidate_some hkeep
    exact ⟨hne, hd1, hd2, raw, hraw, hsrc, hsub⟩
  · intro raw hraw h1 h2 h3 h4
    rw [candidate_pkgs_eq, List.mem_insertionSort, List.mem_filterMap]
    exact ⟨raw, hraw, keep_candidate_eq_some h1 h2 h3 h4⟩
  · unfold install_rpms
    by_cases h1 : (candidate_pkgs g task_id).isEmpty = true
    · rw [if_pos h1]
      simp [List.isEmpty_iff.mp h1]
    · rw [if_neg h1]
      constructor
      · intro h
        by_cases h2 : (plan_fold g task_id).isEmpty = true
        · rw [if_pos h2] at h
          injection h with h3
          exact absurd h3 (by decide)
        · rw [if_neg h2] at h
          exact absurd h (by simp)
      · intro h
        exact absurd (List.isEmpty_iff.mpr h) h1

/-- Witness for the amended C3: on the duplicate-name guest the retained
candidate `foo` satisfies every guarantee of the enumeration theorem. -/
theorem c3_candidate_enumeration_witness :
    "foo" ≠ "" ∧ strEndsWith "foo" "-debuginfo" = false
    ∧ strEndsWith "foo" "-debugsource" = false
    ∧ ∃ raw ∈ splitNl (guest_duplicate_name.sh (all_pkgs_cmd (repo_query_param 9))),
        strStartsWith raw "src" = false ∧ re_sub_dot_plus_colon raw = "foo" :=
  (c3_candidate_enumeration guest_duplicate_name 9).2.1 "foo" (by decide)

/-- A list is a prefix of itself. -/
theorem isPrefixOf_refl (p : List Char) : p.isPrefixOf p = true := by
  induction p with
  | nil => rfl
  | cons c cs ih => simp [List.isPrefixOf, ih]

/-- Appending on the right preserves list prefixes. -/
theorem isPrefixOf_extend (p : List Char) :
    ∀ l suf, p.isPrefixOf l = true → p.isPrefixOf (l ++ suf) = true := by
  induction p with
  | nil =>
    intro l suf h
    cases l ++ suf with
    | nil => rfl
    | cons c cs => rfl
  | cons c cs ih =>
    intro l suf h
    cases l with
    | nil => simp [List.isPrefixOf] at h
    | cons d ds =>
      simp only [List.isPrefixOf, Bool.and_eq_true] at h ⊢
      exact ⟨h.1, ih ds suf h.2⟩

/-- A prefix is an infix. -/
theorem listIsInfixOf_of_prefix (p l : List Char) (h : p.isPrefixOf l = true) :
    listIsInfixOf p l = true := by
  cases l with
  | nil =>
    cases p with
    | nil => rfl
    | cons c cs => simp [List.isPrefixOf] at h
  | cons c rest =>
    unfold listIsInfixOf
    rw [h]
    rfl

/-- Appending on the right preserves infixes. -/
theorem listIsInfixOf_extend (p : List Char) :
    ∀ l suf, listIsInfixOf p l = true → listIsInfixOf p (l ++ suf) = true := by
  intro l
  induction l with
  | nil =>
    intro suf h
    unfold listIsInfixOf at h
    cases p with
    | nil =>
      cases suf with
      | nil => rfl
      | cons c cs => rfl
    | cons c cs => simp [List.isEmpty] at h
  | cons c rest ih =>
    intro suf h
    unfold listIsInfixOf at h ⊢
    rw [Bool.or_eq_true] at h
    rcases h with h | h
    · rw [List.cons_append]
      rw [Bool.or_eq_true]
      left
      exact isPrefixOf_extend p _ suf h
    · rw [List.cons_append]
      rw [Bool.or_eq_true]
      right
      exact ih suf h

/-- An explicitly decomposed occurrence is an infix. -/
theorem listIsInfixOf_append_mid (p : List Char) :
    ∀ pre suf, listIsInfixOf p (pre ++ (p ++ suf)) = true := by
  intro pre
  induction pre with
  | nil =>
    intro suf
    rw [List.nil_append]
    exact listIsInfixOf_of_prefix p _ (isPrefixOf_extend p p suf (isPrefixOf_refl p))
  | cons c cs ih =>
    intro suf
    rw [List.cons_append]
    unfold listIsInfixOf
    rw [Bool.or_eq_true]
    right
    exact ih suf

/-- The character data of a string concatenation. -/
theorem string_data_append (a b : String) : (a ++ b).data = a.data ++ b.data := by
  cases a
  cases b
  rfl

/-- A substring of `s` is a substring of `s ++ t`. -/
theorem strContains_extend (s t pat : String) (h : strContains s pat = true) :
    strContains (s ++ t) pat = true := by
  unfold strContains at h ⊢
  rw [string_data_append]
  exact listIsInfixOf_extend _ _ _ h

/-! ## Claims C4-C5 -/

/-- C4 counterexample: for the concrete task-7 run whose accepted plan is
`[pkgA]`, every conflict query is scoped by the `--disablerepo`, `--enablerepo` and
`--repofrompath` flags to the staged repository, but the install transaction the
code dispatches carries none of those flags — it is NOT scoped to the same
staged repositories, contrary to the claim. -/
theorem c4_install_not_repo_scoped_counterexample :
    install_rpms_result guest_single_pkg true 7
      = .ok (["pkgA"], "dnf install -y --best --allowerasing --nogpgcheck pkgA")
    ∧ strContains (pkg_conflict_cmd (repo_query_param 7) "pkgA") "--enablerepo=7" = true
    ∧ strContains "dnf install -y --best --allowerasing --nogpgcheck pkgA" "--enablerepo" = false
    ∧ strContains "dnf install -y --best --allowerasing --nogpgcheck pkgA" "--disablerepo" = false
    ∧ strContains "dnf install -y --best --allowerasing --nogpgcheck pkgA" "--repofrompath" = false :=
  ⟨rfl, by decide, by decide, by decide, by decide⟩

/-- C4 as amended: installation of the accepted plan is one dnf transaction
covering the full space-joined accepted list with best-effort conflict
allowance (`--best --allowerasing`) and unsigned-package acceptance
(`--nogpgcheck`), and a failing transaction raises an error naming the
attempted package list; however the install command is the fixed unscoped
prefix followed by the package list — it carries none of the
repository-scoping flags the conflict queries use. -/
theorem c4_install_transaction (g : Guest) (task_id : Nat) (plan : List String)
    (h : install_rpms g task_id = .ok plan) :
    install_rpms_result g true task_id = .ok (plan, install_cmd (join_space plan))
    ∧ install_rpms_result g false task_id
        = .error ("Couldn\x27t install " ++ join_space plan)
    ∧ install_cmd (join_space plan)
        = "dnf install -y --best --allowerasing --nogpgcheck " ++ join_space plan
    ∧ strContains (install_cmd (join_space plan)) "--best" = true
    ∧ strContains (install_cmd (join_space plan)) "--allowerasing" = true
    ∧ strContains (install_cmd (join_space plan)) "--nogpgcheck" = true
    ∧ strContains "dnf install -y --best --allowerasing --nogpgcheck " "--enablerepo" = false
    ∧ strContains "dnf install -y --best --allowerasing --nogpgcheck " "--disablerepo" = false
    ∧ strContains "dnf install -y --best --allowerasing --nogpgcheck " "--repofrompath" = false := by
  refine ⟨?_, ?_, rfl, ?_, ?_, ?_, by decide, by decide, by decide⟩
  · unfold install_rpms_result
    rw [h]
    rfl
  · unfold install_rpms_result
    rw [h]
    rfl
  · exact strContains_extend "dnf install -y --best --allowerasing --nogpgcheck "
      (join_space plan) "--best" (by decide)
  · exact strContains_extend "dnf install -y --best --allowerasing --nogpgcheck "
      (join_space plan) "--allowerasing" (by decide)
  · exact strContains_extend "dnf install -y --best --allowerasing --nogpgcheck "
      (join_space plan) "--nogpgcheck" (by decide)

/-- Witness for the amended C4 at the single-package guest. -/
theorem c4_install_transaction_witness :
    install_rpms_result guest_single_pkg false 7
      = .error ("Couldn\x27t install " ++ join_space ["pkgA"])
    ∧ strContains (install_cmd (join_space ["pkgA"])) "--best" = true :=
  ⟨(c4_install_transaction guest_single_pkg 7 ["pkgA"] rfl).2.1,
   (c4_install_transaction guest_single_pkg 7 ["pkgA"] rfl).2.2.2.2.1⟩

/-- The baseline retry loop performs at most `fuel` attempts. -/
theorem baseline_query_loop_length (attempt : Nat → Option String) :
    ∀ fuel i, (baseline_query_loop attempt i fuel).1.length ≤ fuel := by
  intro fuel
  induction fuel with
  | zero => intro i; simp [baseline_query_loop]
  | succ n ih =>
    intro i
    unfold baseline_query_loop
    cases h : attempt i with
    | some out => simp
    | none =>
      simp only [List.length_cons]
      exact Nat.succ_le_succ (ih (i + 1))

/-- Every event the baseline retry loop emits is the dispatched query — in
particular the loop never emits a sleep event, since the source loop body
contains no `time.sleep` call. -/
theorem baseline_query_loop_events (attempt : Nat → Option String) :
    ∀ fuel i, ∀ e ∈ (baseline_query_loop attempt i fuel).1,
      e = .sh installed_conflict_query_cmd := by
  intro fuel
  induction fuel with
  | zero => intro i e he; simp [baseline_query_loop] at he
  | succ n ih =>
    intro i e he
    unfold baseline_query_loop at he
    cases h : attempt i with
    | some out =>
      rw [h] at he
      simp at he
      exact he
    | none =>
      rw [h] at he
      simp only [List.mem_cons] at he
      rcases he with he | he
      · exact he
      · exact ih (i + 1) e he

/-- When every relevant attempt fails, the loop exhausts its fuel. -/
theorem baseline_query_loop_all_fail (attempt : Nat → Option String) :
    ∀ fuel i, (∀ j, i ≤ j → j < i + fuel → attempt j = none) →
      baseline_query_loop attempt i fuel
        = (List.replicate fuel (.sh installed_conflict_query_cmd), none) := by
  intro fuel
  induction fuel with
  | zero => intro i h; simp [baseline_query_loop]
  | succ n ih =>
    intro i h
    unfold baseline_query_loop
    rw [h i (Nat.le_refl i) (by omega)]
    rw [ih (i + 1) (fun j h1 h2 => h j (by omega) (by omega))]
    rfl

/-- When the first success is at offset `k`, the loop makes `k + 1`
attempts and returns that output. -/
theorem baseline_query_loop_first_success (attempt : Nat → Option String) :
    ∀ k fuel i out, k < fuel → (∀ j, j < k → attempt (i + j) = none) →
      attempt (i + k) = some out →
      baseline_query_loop attempt i fuel
        = (List.replicate (k + 1) (.sh installed_conflict_query_cmd), some out) := by
  intro k
  induction k with
  | zero =>
    intro fuel i out hk hfail hsucc
    cases fuel with
    | zero => omega
    | succ n =>
      unfold baseline_query_loop
      rw [show i + 0 = i from rfl] at hsucc
      rw [hsucc]
      rfl
  | succ m ih =>
    intro fuel i out hk hfail hsucc
    cases fuel with
    | zero => omega
    | succ n =>
      unfold baseline_query_loop
      have h0 : attempt i = none := by
        have := hfail 0 (by omega)
        simpa using this
      rw [h0]
      rw [ih n (i + 1) out (by omega)
        (fun j hj => by
          have := hfail (j + 1) (by omega)
          rw [show i + 1 + j = i + (j + 1) by omega]
          exact this)
        (by rw [show i + 1 + m = i + (m + 1) by omega]; exact hsucc)]
      rfl

/-- C5 counterexample: with the first two baseline attempts failing and the
third succeeding, the run dispatches the query three times with NO sleep
event anywhere between the attempts — the source loop contains no
`time.sleep` — contrary to the claim's fixed sleep backoff. -/
theorem c5_no_sleep_counterexample :
    (baseline_query_run attempt_fail_twice).2 = .ok "capX"
    ∧ (baseline_query_run attempt_fail_twice).1
        = [.sh installed_conflict_query_cmd, .sh installed_conflict_query_cmd,
           .sh installed_conflict_query_cmd]
    ∧ (baseline_query_run attempt_fail_twice).1.filter is_sleep_event = [] :=
  ⟨rfl, by decide, by decide⟩

/-- C5 as amended: the installed-package conflict baseline query is retried
up to 5 times on guest-command failure — stopping at the first success and
failing with the query-error message after 5 failures — but with NO sleep
between attempts (the loop emits only query dispatches, never a sleep
event); the task-artifact download (`Koji.download_task`) is attempted
exactly once with no retry loop; the base-image download's bounded retries
live in the curl invocation's own flags. -/
theorem c5_retry_behaviour :
    (∀ attempt : Nat → Option String,
      (baseline_query_run attempt).1.length ≤ 5
      ∧ ∀ e ∈ (baseline_query_run attempt).1, e = .sh installed_conflict_query_cmd)
    ∧ (∀ attempt : Nat → Option String, (∀ i, i < 5 → attempt i = none) →
        baseline_query_run attempt
          = (List.replicate 5 (.sh installed_conflict_query_cmd),
             .error query_conflict_err_msg))
    ∧ (∀ attempt : Nat → Option String, ∀ k out, k < 5 →
        (∀ j, j < k → attempt j = none) → attempt k = some out →
        baseline_query_run attempt
          = (List.replicate (k + 1) (.sh installed_conflict_query_cmd), .ok out))
    ∧ (∀ (koji_params : String) (is_scratch : Bool) (task_id : Nat) (task_repo : String),
        download_task false false koji_params is_scratch task_id task_repo
          = ([KojiEvent.makeDirs task_repo,
              KojiEvent.runCmd (download_task_cmd koji_params is_scratch task_id)],
             .error download_task_err_msg))
    ∧ (∀ url : String, strContains (curl_cmd url) "--retry 10" = true) := by
  refine ⟨?_, ?_, ?_, ?_, ?_⟩
  · intro attempt
    constructor
    · unfold baseline_query_run
      cases h : baseline_query_loop attempt 0 5 with
      | mk tr r =>
        have := baseline_query_loop_length attempt 5 0
        rw [h] at this
        cases r with
        | some out => simpa using this
        | none => simpa using this
  
    · intro e he
      unfold baseline_query_run at he
      cases h : baseline_query_loop attempt 0 5 with
      | mk tr r =>
        have hev := baseline_query_loop_events attempt 5 0
        rw [h] at hev he
        cases r with
        | some out => exact hev e (by simpa using he)
        | none => exact hev e (by simpa using he)
  · intro attempt hfail
    unfold baseline_query_run
    rw [baseline_query_loop_all_fail attempt 5 0 (fun j h1 h2 => hfail j (by omega))]
  · intro attempt k out hk hfail hsucc
    unfold baseline_query_run
    rw [baseline_query_loop_first_success attempt k 5 0 out hk
      (fun j hj => by simpa using hfail j hj) (by simpa using hsucc)]
  · intro koji_params is_scratch task_id task_repo
    rfl
  · intro url
    exact strContains_extend _ url "--retry 10" (by decide)

/-- Witness for the amended C5: the all-fail oracle exhausts the 5 attempts
and fails; the fail-twice oracle succeeds on the third attempt; a concrete
koji download failure makes exactly one attempt. -/
theorem c5_retry_behaviour_witness :
    baseline_query_run attempt_all_fail
      = (List.replicate 5 (.sh installed_conflict_query_cmd),
         .error query_conflict_err_msg)
    ∧ baseline_query_run attempt_fail_twice
        = (List.replicate 3 (.sh installed_conflict_query_cmd), .ok "capX")
    ∧ download_task false false "" true 42 "/a/task_repos/42"
        = ([KojiEvent.makeDirs "/a/task_repos/42",
            KojiEvent.runCmd (download_task_cmd "" true 42)],
           .error download_task_err_msg)
    ∧ strContains (curl_cmd rawhide_qcow2_url) "--retry 10" = true :=
  ⟨c5_retry_behaviour.2.1 attempt_all_fail (fun i h => rfl),
   c5_retry_behaviour.2.2.1 attempt_fail_twice 2 "capX" (by omega)
     (fun j hj => by
       unfold attempt_fail_twice
       rw [if_pos hj])
     rfl,
   c5_retry_behaviour.2.2.2.1 "" true 42 "/a/task_repos/42",
   c5_retry_behaviour.2.2.2.2 rawhide_qcow2_url⟩

/-! ## Claims C6-C7 -/

/-- C6: base-image acquisition is idempotent — whenever the computed target
local file for a supported release already exists, `download_qcow2` returns
that path unchanged, dispatches no curl subprocess (empty event trace), and
is independent of whether a download could have succeeded. -/
theorem c6_download_idempotent (artifacts : String) (is_file : String → Bool)
    (release url : String) (hres : resolve_qcow2_url release = .ok url)
    (hfile : is_file (qcow2_file_path artifacts url) = true) :
    ∀ curl_ok : Bool,
      download_qcow2 artifacts is_file curl_ok release
        = ([], .ok (qcow2_file_path artifacts url)) := by
  intro curl_ok
  unfold download_qcow2
  rw [hres]
  simp only []
  rw [if_pos hfile]

/-- Witness for C6: release `f33` with the target file present returns the
existing path with no fetch event, for both values of the curl oracle. -/
theorem c6_download_idempotent_witness :
    download_qcow2 "/a" (fun _ => true) false "f33"
      = ([], .ok (qcow2_file_path "/a" (fnum_qcow2_url "33")))
    ∧ download_qcow2 "/a" (fun _ => true) true "f33"
        = ([], .ok (qcow2_file_path "/a" (fnum_qcow2_url "33")))
    ∧ qcow2_file_path "/a" (fnum_qcow2_url "33") = "/a/Fedora-33.qcow2" :=
  ⟨c6_download_idempotent "/a" (fun _ => true) "f33" (fnum_qcow2_url "33") rfl rfl false,
   c6_download_idempotent "/a" (fun _ => true) "f33" (fnum_qcow2_url "33") rfl rfl true,
   by decide⟩

/-- The unanchored `re.match(r"f(\d+)", s)` succeeds exactly when the string
starts with `f` followed by a digit. -/
theorem re_match_f_digits_iff (s : String) :
    (∃ ds, re_match_f_digits s = some ds) ↔ starts_with_f_digit s = true := by
  unfold re_match_f_digits starts_with_f_digit
  cases hd : s.data with
  | nil => simp
  | cons c rest =>
    by_cases hc : c = 'f'
    · subst hc
      cases rest with
      | nil => simp [List.takeWhile]
      | cons d ds =>
        by_cases hdig : d.isDigit
        · simp [List.takeWhile, hdig]
        · simp [List.takeWhile, hdig]
    · cases rest with
      | nil => simp [hc]
      | cons d ds => simp [hc]

/-- C7 counterexample: `"f33beta"` is not of the claimed form `f<N>` (an `f`
followed only by digits), so the claim requires `UnsupportedReleaseError`;
but the source's unanchored `re.match(r"f(\d+)", ...)` accepts it and
resolves it to the `f33` artifact URL. -/
theorem c7_unanchored_match_counterexample :
    spec_form_f_num "f33beta" = false
    ∧ "f33beta" ≠ "rawhide"
    ∧ resolve_qcow2_url "f33beta" = .ok (fnum_qcow2_url "33") :=
  ⟨by decide, by decide, rfl⟩

/-- C7 as amended: `"rawhide"` maps to the rawhide-build artifact URL; any
release whose text starts with `f` followed by at least one digit maps to
the `f<D>`-build artifact URL where `D` is the maximal leading digit run
(trailing non-digit text is ignored, so strings of the spec's exact form
`f<N>` are included but so is e.g. `f33beta`); resolution fails with
`"Unsupported release ..."` exactly for every other string. -/
theorem c7_release_resolution :
    (∀ release : String,
      (∃ u, resolve_qcow2_url release = .ok u)
        ↔ (release = "rawhide" ∨ starts_with_f_digit release = true))
    ∧ resolve_qcow2_url "rawhide" = .ok rawhide_qcow2_url
    ∧ (∀ release ds, release ≠ "rawhide" → re_match_f_digits release = some ds →
        resolve_qcow2_url release = .ok (fnum_qcow2_url ds))
    ∧ (∀ release, release ≠ "rawhide" → re_match_f_digits release = none →
        resolve_qcow2_url release = .error ("Unsupported release " ++ release))
    ∧ (∀ s, spec_form_f_num s = true → starts_with_f_digit s = true) := by
  refine ⟨?_, rfl, ?_, ?_, ?_⟩
  · intro release
    constructor
    · rintro ⟨u, hu⟩
      unfold resolve_qcow2_url at hu
      by_cases hr : release = "rawhide"
      · exact Or.inl hr
      · rw [if_neg hr] at hu
        cases hm : re_match_f_digits release with
        | none => rw [hm] at hu; exact absurd hu (by simp)
        | some n =>
          exact Or.inr ((re_match_f_digits_iff release).mp ⟨n, hm⟩)
    · rintro (hr | hsw)
      · subst hr
        exact ⟨rawhide_qcow2_url, rfl⟩
      · by_cases hr : release = "rawhide"
        · subst hr
          exact ⟨rawhide_qcow2_url, rfl⟩
        · obtain ⟨ds, hm⟩ := (re_match_f_digits_iff release).mpr hsw
          refine ⟨fnum_qcow2_url ds, ?_⟩
          unfold resolve_qcow2_url
          rw [if_neg hr, hm]
  · intro release ds hr hm
    unfold resolve_qcow2_url
    rw [if_neg hr, hm]
  · intro release hr hm
    unfold resolve_qcow2_url
    rw [if_neg hr, hm]
  · intro s h
    unfold spec_form_f_num at h
    unfold starts_with_f_digit
    cases hd : s.data with
    | nil => rw [hd] at h; exact absurd h (by simp)
    | cons c rest =>
      rw [hd] at h
      simp only [Bool.and_eq_true, decide_eq_true_eq] at h
      obtain ⟨⟨hc, hne⟩, hall⟩ := h
      cases rest with
      | nil => exact absurd hne (by simp)
      | cons d ds =>
        simp only [List.all_cons, Bool.and_eq_true] at hall
        simp [hc, hall.1]

/-- Witness for the amended C7: `f41` resolves to the `f41` URL and `epel8`
fails with the unsupported-release error. -/
theorem c7_release_resolution_witness :
    resolve_qcow2_url "f41" = .ok (fnum_qcow2_url "41")
    ∧ resolve_qcow2_url "epel8" = .error ("Unsupported release " ++ "epel8") :=
  ⟨c7_release_resolution.2.2.1 "f41" "41" (by decide) rfl,
   c7_release_resolution.2.2.2.1 "epel8" (by decide) rfl⟩

/-! ## Claim C8 -/

/-- C8 counterexample: an argparse failure raises `SystemExit(2)`, which the
`except Exception` handler does not catch — the process exits with code 2
(neither 0 nor 1) and no result record is written; likewise a failure of
`os.makedirs` before logging is configured crashes the handler itself
(`this.logger` is still `None`), exiting 1 with no record written.  Both
contradict the claim that the record is written in every case and the exit
code is always 0 or 1. -/
theorem c8_early_failure_counterexample :
    run_pipeline false true "/a" (.ok "/a/Fedora-33.qcow2")
      = ⟨2, none⟩
    ∧ run_pipeline true false "/a" (.error download_qcow2_err_msg)
      = ⟨1, none⟩ :=
  ⟨rfl, rfl⟩

/-- C8 as amended: once argument parsing and the artifacts-directory
creation have succeeded (after which the result path and logger are
configured), the process exits 0 on success writing the success record
(status 0, image path, log path) and exits 1 on any fatal error writing the
failure record (status 1, null image, error reason, log path); an
argument-parsing failure exits 2 and an artifacts-directory failure exits 1,
both without writing any record. -/
theorem c8_boundary_behaviour :
    (∀ (artifacts image_path : String),
      run_pipeline true true artifacts (.ok image_path)
        = ⟨0, some ⟨0, some image_path, none, output_log_path artifacts⟩⟩)
    ∧ (∀ (artifacts msg : String),
        run_pipeline true true artifacts (.error msg)
          = ⟨1, some ⟨1, none, some msg, output_log_path artifacts⟩⟩)
    ∧ (∀ (artifacts : String) (p : Except String String),
        run_pipeline false true artifacts p = ⟨2, none⟩)
    ∧ (∀ (artifacts : String) (p : Except String String),
        run_pipeline true false artifacts p = ⟨1, none⟩) :=
  ⟨fun _ _ => rfl, fun _ _ => rfl, fun _ _ => rfl, fun _ _ => rfl⟩

/-! ## Trace lemmas for `prepare_qcow2` -/

/-- The finish step only appends (at most a relabel event) to the trace. -/
theorem prep_finish_trace (o : PrepOracle) (tr : List PrepEvent) :
    ∃ extra, (prep_finish o tr).1 = tr ++ extra
      ∧ staged_of extra = [] ∧ installed_of extra = [] := by
  unfold prep_finish
  cases o.seType with
  | none => exact ⟨[], by simp, rfl, rfl⟩
  | some t =>
    by_cases h : o.relabelOk = true
    · rw [if_pos h]
      exact ⟨[.relabel], rfl, rfl, rfl⟩
    · rw [if_neg h]
      exact ⟨[.relabel], rfl, rfl, rfl⟩

/-- The upgrade step only appends shell/relabel events to the trace. -/
theorem prep_upgrade_trace (o : PrepOracle) (su : Bool) (tr : List PrepEvent) :
    ∃ extra, (prep_upgrade o su tr).1 = tr ++ extra
      ∧ staged_of extra = [] ∧ installed_of extra = [] := by
  unfold prep_upgrade
  by_cases hsu : su = true
  · rw [if_pos hsu]
    by_cases hup : o.upgradeOk = true
    · rw [if_pos hup]
      obtain ⟨e, he, hs, hi⟩ := prep_finish_trace o (tr ++ [.sh "dnf upgrade -y"])
      refine ⟨[.sh "dnf upgrade -y"] ++ e, ?_, ?_, ?_⟩
      · rw [he, List.append_assoc]
      · unfold staged_of at hs ⊢
        rw [List.filterMap_append, hs]
        rfl
      · unfold installed_of at hi ⊢
        rw [List.filterMap_append, hi]
        rfl
    · rw [if_neg hup]
      exact ⟨[.sh "dnf upgrade -y"], rfl, rfl, rfl⟩
  · rw [if_neg hsu]
    exact prep_finish_trace o tr

/-- Staging all repos succeeds with the canonical per-repo event pairs when
every copy succeeds. -/
theorem copy_task_repos_all_ok (cr : String → Except String Unit) :
    ∀ repos, (∀ r ∈ repos, cr r = .ok ()) →
      (copy_task_repos cr repos).2 = .ok ()
      ∧ staged_of (copy_task_repos cr repos).1 = repos
      ∧ installed_of (copy_task_repos cr repos).1 = [] := by
  intro repos
  induction repos with
  | nil => intro h; exact ⟨rfl, rfl, rfl⟩
  | cons r rs ih =>
    intro h
    obtain ⟨h1, h2, h3⟩ := ih (fun x hx => h x (List.mem_cons_of_mem r hx))
    unfold copy_task_repos
    rw [h r (List.mem_cons_self r rs)]
    simp only []
    refine ⟨h1, ?_, ?_⟩
    · unfold staged_of at h2 ⊢
      simp only [List.filterMap_cons]
      rw [h2]
    · unfold installed_of at h3 ⊢
      simp only [List.filterMap_cons]
      rw [h3]

/-- Installing over all ids succeeds with exactly one install event per id
when every per-task install succeeds. -/
theorem install_tasks_all_ok (inst : Nat → Except String Unit) :
    ∀ ids, (∀ t ∈ ids, inst t = .ok ()) →
      (install_tasks inst ids).2 = .ok ()
      ∧ staged_of (install_tasks inst ids).1 = []
      ∧ installed_of (install_tasks inst ids).1 = ids := by
  intro ids
  induction ids with
  | nil => intro h; exact ⟨rfl, rfl, rfl⟩
  | cons t ts ih =>
    intro h
    obtain ⟨h1, h2, h3⟩ := ih (fun x hx => h x (List.mem_cons_of_mem t hx))
    unfold install_tasks
    rw [h t (List.mem_cons_self t ts)]
    simp only []
    refine ⟨h1, ?_, ?_⟩
    · unfold staged_of at h2 ⊢
      simp only [List.filterMap_cons]
      rw [h2]
    · unfold installed_of at h3 ⊢
      simp only [List.filterMap_cons]
      rw [h3]

/-- With a successful mount, the `prepare_qcow2` trace always begins with
the mount followed immediately by the release-dependent repo mutation
command, whatever happens later. -/
theorem prepare_qcow2_trace_head (o : PrepOracle) (release : String)
    (task_repos : List String) (task_ids : List Nat) (inst su : Bool)
    (hm : o.mount = .ok ()) :
    ∃ rest, (prepare_qcow2 o release task_repos task_ids inst su).1
      = PrepEvent.mount :: PrepEvent.sh (rel_mut_cmd release) :: rest := by
  unfold prepare_qcow2
  rw [hm]
  simp only []
  by_cases hr : o.relMutOk = false
  · rw [if_pos hr]
    exact ⟨[], rfl⟩
  · rw [if_neg hr]
    unfold prep_latest_step
    cases o.latest with
    | error e => exact ⟨[.addLatestRepo release], rfl⟩
    | ok u =>
      unfold prep_copy_step
      cases hc : (copy_task_repos o.copyRepo task_repos).2 with
      | error e =>
        exact ⟨[PrepEvent.addLatestRepo release]
          ++ (copy_task_repos o.copyRepo task_repos).1, by simp⟩
      | ok v =>
        unfold prep_install_step
        cases hi : (install_tasks o.install (if inst then task_ids else [])).2 with
        | error e =>
          exact ⟨[PrepEvent.addLatestRepo release]
            ++ (copy_task_repos o.copyRepo task_repos).1
            ++ (install_tasks o.install (if inst then task_ids else [])).1, by simp⟩
        | ok w =>
          obtain ⟨extra, he, _, _⟩ := prep_upgrade_trace o su
            (([PrepEvent.mount, PrepEvent.sh (rel_mut_cmd release)]
              ++ [PrepEvent.addLatestRepo release]
              ++ (copy_task_repos o.copyRepo task_repos).1)
             ++ (install_tasks o.install (if inst then task_ids else [])).1)
          exact ⟨[PrepEvent.addLatestRepo release]
            ++ (copy_task_repos o.copyRepo task_repos).1
            ++ (install_tasks o.install (if inst then task_ids else [])).1
            ++ extra, by rw [he]; simp⟩

/-! ## Claim C9 -/

/-- C9: in every run with a successful mount, the session's next action
after mounting — and before any repository is staged — is the
release-dependent mutation of the guest's pre-existing repo definitions:
for `rawhide`, the sed rewrite of every `/etc/yum.repos.d/*.repo` file to
`gpgcheck=0`; for every other release, enabling the `updates-testing` and
`updates-testing-debuginfo` repositories.  A failure of that command is
fatal with the corresponding message and in that case nothing is ever
staged. -/
theorem c9_release_dependent_repo_mutation (o : PrepOracle) (release : String)
    (task_repos : List String) (task_ids : List Nat) (inst su : Bool)
    (hm : o.mount = .ok ()) :
    (∃ rest, (prepare_qcow2 o release task_repos task_ids inst su).1
        = PrepEvent.mount :: PrepEvent.sh (rel_mut_cmd release) :: rest)
    ∧ staged_of ((prepare_qcow2 o release task_repos task_ids inst su).1.take 2) = []
    ∧ rel_mut_cmd "rawhide" = "sed -i s/gpgcheck=.*/gpgcheck=0/ /etc/yum.repos.d/*.repo"
    ∧ (release ≠ "rawhide" → rel_mut_cmd release
        = "dnf config-manager --set-enable updates-testing updates-testing-debuginfo")
    ∧ rel_mut_err "rawhide" = "Couldn\x27t disable gpgcheck"
    ∧ (release ≠ "rawhide" → rel_mut_err release = "Couldn\x27t enable updates testing repos")
    ∧ (o.relMutOk = false →
        prepare_qcow2 o release task_repos task_ids inst su
          = ([PrepEvent.mount, PrepEvent.sh (rel_mut_cmd release)],
             .error (rel_mut_err release))) := by
  obtain ⟨rest, hrest⟩ := prepare_qcow2_trace_head o release task_repos task_ids inst su hm
  refine ⟨⟨rest, hrest⟩, ?_, rfl, ?_, rfl, ?_, ?_⟩
  · rw [hrest]
    rfl
  · intro h
    unfold rel_mut_cmd
    rw [if_neg h]
  · intro h
    unfold rel_mut_err
    rw [if_neg h]
  · intro h
    unfold prepare_qcow2
    rw [hm]
    simp only []
    rw [if_pos h]

/-- Witness for C9: with a failing repo-mutation step on rawhide, the run
stops right after the sed command with the disable-gpgcheck error. -/
theorem c9_release_dependent_repo_mutation_witness :
    prepare_qcow2 prep_oracle_relmut_fail "rawhide" ["/a/task_repos/5"] [5] true true
      = ([PrepEvent.mount,
          PrepEvent.sh "sed -i s/gpgcheck=.*/gpgcheck=0/ /etc/yum.repos.d/*.repo"],
         .error "Couldn\x27t disable gpgcheck") := by
  have h := (c9_release_dependent_repo_mutation prep_oracle_relmut_fail "rawhide"
    ["/a/task_repos/5"] [5] true true rfl).2.2.2.2.2.2 rfl
  rw [h]
  rfl

/-! ## String containment lemmas for the repo-scoping flags -/

/-- Prepending on the left preserves infixes. -/
theorem listIsInfixOf_extend_left (p : List Char) :
    ∀ pre l, listIsInfixOf p l = true → listIsInfixOf p (pre ++ l) = true := by
  intro pre
  induction pre with
  | nil => intro l h; exact h
  | cons c cs ih =>
    intro l h
    rw [List.cons_append]
    unfold listIsInfixOf
    rw [Bool.or_eq_true]
    right
    exact ih l h

/-- A substring of `t` is a substring of `s ++ t`. -/
theorem strContains_prepend (s t pat : String) (h : strContains t pat = true) :
    strContains (s ++ t) pat = true := by
  unfold strContains at h ⊢
  rw [string_data_append]
  exact listIsInfixOf_extend_left _ _ _ h

/-- Strings with equal character data are equal. -/
theorem string_eq_of_data {a b : String} (h : a.data = b.data) : a = b := by
  cases a
  cases b
  exact congrArg String.mk h

/-- A string starts with itself followed by anything. -/
theorem strContains_self_prefix (pat suf : String) :
    strContains (pat ++ suf) pat = true := by
  unfold strContains
  rw [string_data_append]
  exact listIsInfixOf_of_prefix _ _ (isPrefixOf_extend _ _ _ (isPrefixOf_refl _))

/-- An explicitly decomposed middle occurrence is a substring. -/
theorem strContains_infix_decomp (pre pat suf : String) :
    strContains (pre ++ (pat ++ suf)) pat = true := by
  unfold strContains
  rw [string_data_append, string_data_append]
  exact listIsInfixOf_append_mid _ _ _

/-- A string contains its own suffix. -/
theorem strContains_suffix_decomp (pre pat : String) :
    strContains (pre ++ pat) pat = true := by
  unfold strContains
  rw [string_data_append]
  have h := listIsInfixOf_append_mid pat.data pre.data []
  rwa [List.append_nil] at h

/-- The repoquery scoping string disables every repository. -/
theorem repo_query_param_contains_disablerepo (t : Nat) :
    strContains (repo_query_param t) "--disablerepo=*" = true := by
  have heq : repo_query_param t
      = "--disablerepo=*" ++ (" --enablerepo=" ++ toString t ++ " --repofrompath="
        ++ toString t ++ "," ++ dest_base_repo_path ++ "/" ++ toString t) := by
    apply string_eq_of_data
    unfold repo_query_param
    simp [string_data_append, List.append_assoc]
  rw [heq]
  exact strContains_self_prefix _ _

/-- The repoquery scoping string enables exactly the task's repository. -/
theorem repo_query_param_contains_enablerepo (t : Nat) :
    strContains (repo_query_param t) ("--enablerepo=" ++ toString t) = true := by
  have heq : repo_query_param t
      = "--disablerepo=* " ++ (("--enablerepo=" ++ toString t)
        ++ (" --repofrompath=" ++ toString t ++ "," ++ dest_base_repo_path
            ++ "/" ++ toString t)) := by
    apply string_eq_of_data
    unfold repo_query_param
    simp [string_data_append, List.append_assoc]
  rw [heq]
  exact strContains_infix_decomp _ _ _

/-- The repoquery scoping string points the task's repository at its own
staged path under `/opt/task_repos`. -/
theorem repo_query_param_contains_repofrompath (t : Nat) :
    strContains (repo_query_param t)
      ("--repofrompath=" ++ toString t ++ "," ++ dest_base_repo_path
        ++ "/" ++ toString t) = true := by
  have heq : repo_query_param t
      = ("--disablerepo=* --enablerepo=" ++ toString t ++ " ")
        ++ ("--repofrompath=" ++ toString t ++ "," ++ dest_base_repo_path
            ++ "/" ++ toString t) := by
    apply string_eq_of_data
    unfold repo_query_param
    simp [string_data_append, List.append_assoc]
  rw [heq]
  exact strContains_suffix_decomp _ _

/-- Containments of the scoping string lift to the full candidate query
command built around it. -/
theorem all_pkgs_cmd_contains (t : Nat) (pat : String)
    (h : strContains (repo_query_param t) pat = true) :
    strContains (all_pkgs_cmd (repo_query_param t)) pat = true := by
  unfold all_pkgs_cmd
  exact strContains_extend _ _ _ (strContains_prepend _ _ _ h)

/-! ## Full-success trace of `prepare_qcow2` -/

/-- When the mount, repo mutation, latest-repo step, every copy and every
install succeed, the staged repos of the run are exactly the given
`task_repos` and the installed ids exactly the ids handed to the install
loop. -/
theorem prepare_qcow2_ok_events (o : PrepOracle) (release : String)
    (task_repos : List String) (task_ids : List Nat) (inst su : Bool)
    (hm : o.mount = .ok ()) (hr : o.relMutOk = true) (hl : o.latest = .ok ())
    (hc : ∀ r ∈ task_repos, o.copyRepo r = .ok ())
    (hi : ∀ t ∈ (if inst then task_ids else []), o.install t = .ok ()) :
    staged_of (prepare_qcow2 o release task_repos task_ids inst su).1 = task_repos
    ∧ installed_of (prepare_qcow2 o release task_repos task_ids inst su).1
        = (if inst then task_ids else []) := by
  obtain ⟨hc2, hcs, hci⟩ := copy_task_repos_all_ok o.copyRepo task_repos hc
  obtain ⟨hi2, his, hii⟩ := install_tasks_all_ok o.install _ hi
  unfold prepare_qcow2
  rw [hm]
  simp only []
  rw [if_neg (by rw [hr]; simp)]
  unfold prep_latest_step
  rw [hl]
  simp only []
  unfold prep_copy_step
  rw [hc2]
  simp only []
  unfold prep_install_step
  rw [hi2]
  simp only []
  obtain ⟨extra, he, hes, hei⟩ := prep_upgrade_trace o su
    ([PrepEvent.mount, PrepEvent.sh (rel_mut_cmd release)]
      ++ [PrepEvent.addLatestRepo release]
      ++ (copy_task_repos o.copyRepo task_repos).1
      ++ (install_tasks o.install (if inst then task_ids else [])).1)
  rw [he]
  constructor
  · unfold staged_of at hcs his hes ⊢
    simp only [List.filterMap_append]
    rw [hcs, his, hes]
    simp
  · unfold installed_of at hci hii hei ⊢
    simp only [List.filterMap_append]
    rw [hci, hii, hei]
    simp

/-! ## Claim C10 -/

/-- Membership in the installed-ids projection of a trace. -/
theorem mem_installed_of {tr : List PrepEvent} {t : Nat} :
    t ∈ installed_of tr ↔ PrepEvent.installTask t ∈ tr := by
  unfold installed_of
  rw [List.mem_filterMap]
  constructor
  · rintro ⟨e, he, hsome⟩
    cases e <;> simp at hsome
    subst hsome
    exact he
  · intro h
    exact ⟨PrepEvent.installTask t, h, rfl⟩

/-- C10 counterexample: the screening queries for task 123 are scoped to its
own staged repository path `/opt/task_repos/123`, but the install command the
code would dispatch for an accepted plan `pkgA pkgB` mentions no repository
scoping and no staged path at all — the install transaction is not
restricted to the task's own staged repository, contrary to the claim. -/
theorem c10_install_not_scoped_counterexample :
    strContains (install_cmd "pkgA pkgB") "--disablerepo" = false
    ∧ strContains (install_cmd "pkgA pkgB") "--repofrompath" = false
    ∧ strContains (install_cmd "pkgA pkgB") "/opt/task_repos" = false
    ∧ strContains (all_pkgs_cmd (repo_query_param 123)) "/opt/task_repos/123" = true :=
  ⟨by decide, by decide, by decide, by decide⟩

/-- C10 as amended: additional task ids are downloaded and staged exactly
like primary ids (`main` concatenates the two lists and builds one staged
repo per id), but the installer loop receives only the primary ids — on a
fully successful run the staged repos are exactly the primary-plus-additional
list while the install events are exactly the primary ids, and an additional
id not in the primary list is never installed; each primary id's screening
queries are scoped (disable-all, enable-own, repofrompath-own) to its own
staged repository, though the install transaction itself carries no such
scoping. -/
theorem c10_additional_ids_staged_not_installed (o : PrepOracle)
    (release artifacts : String) (primary additional : List Nat) (su : Bool)
    (hm : o.mount = .ok ()) (hr : o.relMutOk = true) (hl : o.latest = .ok ())
    (hc : ∀ r, o.copyRepo r = .ok ()) (hi : ∀ t, o.install t = .ok ()) :
    main_staged_repos artifacts primary additional
      = primary.map (task_repo_path artifacts) ++ additional.map (task_repo_path artifacts)
    ∧ staged_of (main_prepare o release artifacts primary additional true su).1
        = main_staged_repos artifacts primary additional
    ∧ installed_of (main_prepare o release artifacts primary additional true su).1
        = primary
    ∧ (∀ t ∈ additional, t ∉ primary →
        PrepEvent.installTask t ∉ (main_prepare o release artifacts primary additional true su).1)
    ∧ (∀ t : Nat,
        strContains (all_pkgs_cmd (repo_query_param t)) "--disablerepo=*" = true
        ∧ strContains (all_pkgs_cmd (repo_query_param t)) ("--enablerepo=" ++ toString t) = true
        ∧ strContains (all_pkgs_cmd (repo_query_param t))
            ("--repofrompath=" ++ toString t ++ "," ++ dest_base_repo_path
              ++ "/" ++ toString t) = true) := by
  have hev := prepare_qcow2_ok_events o release
    (main_staged_repos artifacts primary additional) primary true su
    hm hr hl (fun r _ => hc r) (fun t _ => hi t)
  refine ⟨?_, ?_, ?_, ?_, ?_⟩
  · unfold main_staged_repos main_repo_task_ids
    exact List.map_append _ primary additional
  · exact hev.1
  · simpa using hev.2
  · intro t ht hnp hmem
    have : t ∈ installed_of (main_prepare o release artifacts primary additional true su).1 :=
      mem_installed_of.mpr hmem
    rw [show installed_of (main_prepare o release artifacts primary additional true su).1
        = primary from by simpa using hev.2] at this
    exact hnp this
  · intro t
    exact ⟨all_pkgs_cmd_contains t _ (repo_query_param_contains_disablerepo t),
      all_pkgs_cmd_contains t _ (repo_query_param_contains_enablerepo t),
      all_pkgs_cmd_contains t _ (repo_query_param_contains_repofrompath t)⟩

/-- Witness for the amended C10: with primary ids `[11]` and additional ids
`[22]`, both are staged but only task 11 is installed, and task 22 is never
handed to the installer. -/
theorem c10_additional_ids_staged_not_installed_witness :
    staged_of (main_prepare prep_oracle_ok "f33" "/a" [11] [22] true true).1
      = ["/a/task_repos/11", "/a/task_repos/22"]
    ∧ installed_of (main_prepare prep_oracle_ok "f33" "/a" [11] [22] true true).1 = [11]
    ∧ PrepEvent.installTask 22 ∉ (main_prepare prep_oracle_ok "f33" "/a" [11] [22] true true).1
    ∧ strContains (all_pkgs_cmd (repo_query_param 11)) ("--enablerepo=" ++ toString 11) = true := by
  have h := c10_additional_ids_staged_not_installed prep_oracle_ok "f33" "/a" [11] [22] true
    rfl rfl rfl (fun r => rfl) (fun t => rfl)
  refine ⟨?_, h.2.2.1, h.2.2.2.1 22 (by simp) (by simp), (h.2.2.2.2 11).2.1⟩
  rw [h.2.1, h.1]
  rfl
